import Mathlib

/-!
# ratproxy: the relay handler of `api/index.js`

A shallow embedding of the single serverless function of the repository
(`handler` and `setCors`) and the properties of its request handling.

JavaScript strings are Lean strings and every string operation of the source
is written over the list of characters of the string.  The response object
`res` is a record that the calls of the source transform in sequence; the
outbound `fetch` and the non-ASCII part of `String.prototype.toLowerCase` are
supplied by the hosting platform and are a parameter of the handler.
-/

set_option autoImplicit false

namespace RatProxy

/-! ## Values -/

/-- Bytes of a body, each below 256. -/
abbrev Bytes := List Nat

/-- An `Error` object: the two fields the handler can observe. -/
structure JsError where
  name : String
  message : String
deriving DecidableEq, Repr

/-- The result of `String(err)` for an `Error` object (`Error.prototype.toString`). -/
def JsError.toString (e : JsError) : String :=
  if e.name = "" then e.message
  else if e.message = "" then e.name
  else e.name ++ ": " ++ e.message

/-- The expression `err?.message || String(err)` of the catch block: the empty
message is falsy, so that `String(err)` is taken in its place. -/
def errText (e : JsError) : String :=
  if e.message ≠ "" then e.message else e.toString

/-- The JavaScript `a || d` on an optional string: `undefined` and the empty
string are falsy. -/
def jsOr (a : Option String) (d : String) : String :=
  match a with
  | some s => if s = "" then d else s
  | none => d

/-- Truthiness of a value that is a string or `undefined`. -/
def truthy (a : Option String) : Bool :=
  match a with
  | some s => decide (s ≠ "")
  | none => false

/-- ASCII lower-casing of a string (`A`..`Z` only). -/
def asciiLower (s : String) : String :=
  String.mk (s.data.map Char.toLower)

/-- The method `s.startsWith(p)`. -/
def startsWith (s p : String) : Bool :=
  p.data.isPrefixOf s.data

/-- The method `s.includes(sub)`: `sub` occurs in `s` at some position. -/
def includes (s sub : String) : Bool :=
  s.data.tails.any (fun t => sub.data.isPrefixOf t)

/-! ## The platform -/

/-- The body of an upstream response, as the handler can use it.  `piped`: the
body is an object with a `pipe` function, which delivers the chunks in order and
then ends.  `plain`: there is no `pipe` (a web stream, or no body at all) and
`arrayBuffer()` resolves with the bytes or rejects with an error. -/
inductive UpstreamBody where
  | piped (chunks : List Bytes)
  | plain (arrayBuffer : Except JsError Bytes)

/-- The response object that `fetch` resolves with.  `headers` is the sequence
of `(key, value)` pairs that `upstream.headers.forEach` visits. -/
structure Upstream where
  status : Nat
  headers : List (String × String)
  body : UpstreamBody

/-- The second argument of `fetch`. -/
structure FetchInit where
  method : String
  headers : List (String × String)
  redirect : String
  cache : String
deriving DecidableEq, Repr

/-- Outcome of awaiting `fetch`. -/
inductive FetchResult where
  | rejects (err : JsError)
  | resolves (upstream : Upstream)

/-- What the hosting platform supplies: the lower-case mapping of the
characters outside ASCII (`toLowerCase` maps the ASCII letters itself) and the
outcome of every outbound fetch. -/
structure Platform where
  lowerNonAscii : Char → List Char
  fetch : String → FetchInit → FetchResult

/-- Lower-casing of one character by `toLowerCase`. -/
def lowerChar (P : Platform) (c : Char) : List Char :=
  if c.toNat < 128 then [c.toLower] else P.lowerNonAscii c

/-- The method `s.toLowerCase()`. -/
def toLowerCase (P : Platform) (s : String) : String :=
  String.mk (s.data.flatMap (lowerChar P))

/-- The inbound request: `req.method`, `req.query` (own keys in the order of
`Object.keys`, each with a string value or `undefined`) and `req.headers` (keyed
by lower-case name). -/
structure Request where
  method : String
  query : List (String × Option String)
  headers : List (String × String)

/-- Property read `req.query[k]`: `undefined` when the key is absent. -/
def queryGet (q : List (String × Option String)) (k : String) : Option String :=
  (q.lookup k).join

/-- The call `Object.keys(req.query)`. -/
def objectKeys (q : List (String × Option String)) : List String :=
  q.map Prod.fst

/-- Property read `req.headers[k]`. -/
def headerGet (h : List (String × String)) (k : String) : Option String :=
  h.lookup k

/-! ## The response object -/

/-- One write to the response: a string (`send`) or binary data. -/
inductive Payload where
  | text (s : String)
  | binary (b : Bytes)
deriving DecidableEq, Repr

/-- The response object `res`. -/
structure Res where
  statusCode : Nat
  headers : List (String × String)
  body : List Payload
  ended : Bool
deriving DecidableEq, Repr

/-- One outbound call of `fetch`. -/
structure FetchCall where
  url : String
  init : FetchInit
deriving DecidableEq, Repr

/-- The state a run of the handler acts on: the response object and the log of
outbound fetches. -/
structure St where
  res : Res
  calls : List FetchCall
deriving DecidableEq, Repr

/-- The state at the start of a request. -/
def St.init : St :=
  { res := { statusCode := 200, headers := [], body := [], ended := false }, calls := [] }

/-- A thrown error together with the state at the point of the throw, which is
the state the catch block goes on from. -/
abbrev Thrown := JsError × St

/-- Characters of an HTTP token, the characters a header name is made of. -/
def isTokenChar (c : Char) : Bool :=
  let n := c.toNat
  (48 ≤ n && n ≤ 57) || (65 ≤ n && n ≤ 90) || (97 ≤ n && n ≤ 122) ||
    [33, 35, 36, 37, 38, 39, 42, 43, 45, 46, 94, 95, 96, 124, 126].contains n

/-- Header names that `res.setHeader` accepts. -/
def validHeaderName (name : String) : Bool :=
  !name.data.isEmpty && name.data.all isTokenChar

/-- Header values that `res.setHeader` accepts: tab, printable ASCII and the
bytes from 128 to 255. -/
def validHeaderValue (value : String) : Bool :=
  value.data.all (fun c => c.toNat == 9 || (32 ≤ c.toNat && c.toNat ≤ 126) ||
    (128 ≤ c.toNat && c.toNat ≤ 255))

/-- The header table of the response after a header is stored: the table is
keyed by the lower-case name, and a header of the same key is replaced. -/
def storeHeader (hs : List (String × String)) (name value : String) :
    List (String × String) :=
  if hs.any (fun h => asciiLower h.1 == asciiLower name) then
    hs.map (fun h => if asciiLower h.1 = asciiLower name then (name, value) else h)
  else hs ++ [(name, value)]

/-- The call `res.setHeader(name, value)`: throws on a name or value that is not
valid and stores the header otherwise. -/
def St.setHeader (st : St) (name value : String) : Except Thrown St :=
  if validHeaderName name then
    if validHeaderValue value then
      .ok { st with res := { st.res with headers := storeHeader st.res.headers name value } }
    else .error (⟨"TypeError", "Invalid character in header content"⟩, st)
  else .error (⟨"TypeError", "Header name must be a valid HTTP token"⟩, st)

/-- The call `res.status(code)`. -/
def St.status (st : St) (code : Nat) : St :=
  { st with res := { st.res with statusCode := code } }

/-- The call `res.send(text)`. -/
def St.send (st : St) (text : String) : St :=
  { st with res := { st.res with body := st.res.body ++ [Payload.text text], ended := true } }

/-- The call `res.end()`. -/
def St.finish (st : St) : St :=
  { st with res := { st.res with ended := true } }

/-- The call `res.end(buf)`. -/
def St.finishWith (st : St) (buf : Bytes) : St :=
  { st with res := { st.res with body := st.res.body ++ [Payload.binary buf], ended := true } }

/-- The call `upstream.body.pipe(res)`, run to its end: every chunk is written
to the response, which is then ended. -/
def St.pipe (st : St) (chunks : List Bytes) : St :=
  { st with res := { st.res with body := st.res.body ++ chunks.map Payload.binary,
                                 ended := true } }

/-- The bytes of a written string. -/
def Payload.bytes : Payload → Bytes
  | .text s => (s.data.flatMap String.utf8EncodeChar).map UInt8.toNat
  | .binary b => b

/-- The bytes the client receives as the body. -/
def Res.bodyBytes (res : Res) : Bytes :=
  (res.body.map Payload.bytes).flatten

/-! ## The source: `setCors` and `handler` -/

/-- The function `setCors` of the source. -/
def setCors (st : St) : Except Thrown St := do
  let st ← st.setHeader "Access-Control-Allow-Origin" "*"
  let st ← st.setHeader "Access-Control-Allow-Headers"
    "Origin, X-Requested-With, Content-Type, Accept"
  st.setHeader "Access-Control-Allow-Methods" "GET,HEAD,OPTIONS"

/-- The variable `target` after the extraction of the source: `req.query.url`,
replaced by the sole key of the query when it is falsy and that key starts with
`http`. -/
def target (q : List (String × Option String)) : Option String :=
  let target := queryGet q "url"
  if !truthy target then
    let keys := objectKeys q
    if keys.length = 1 ∧ startsWith (keys.headD "") "http" then some (keys.headD "")
    else target
  else target

/-- The alternatives of the regular expression `forbiddenSchemes`. -/
def forbiddenSchemes : List String :=
  ["about:", "chrome:", "file:", "data:", "vbscript:", "javascript:"]

/-- The call `forbiddenSchemes.test(target)`: the expression is anchored at the
start and, under the flag `i` without the flag `u`, a letter of an alternative
matches exactly its two ASCII cases. -/
def forbiddenSchemesTest (t : String) : Bool :=
  forbiddenSchemes.any (fun p => (asciiLower (String.mk (t.data.take p.length))) == p)

/-- The constant `host` of the source. -/
def host (P : Platform) (req : Request) : String :=
  toLowerCase P (jsOr (headerGet req.headers "host") "")

/-- The options of the outbound fetch. -/
def fetchInit (req : Request) : FetchInit :=
  { method := "GET",
    headers :=
      [("User-Agent", jsOr (headerGet req.headers "user-agent")
          "Mozilla/5.0 (compatible; Vercel-CORS-Proxy/1.0)"),
       ("Accept", jsOr (headerGet req.headers "accept") "*/*"),
       ("Accept-Language", jsOr (headerGet req.headers "accept-language") "en-US,en;q=0.9")],
    redirect := "follow",
    cache := "no-store" }

/-- The set `blockedHeaders` of the source. -/
def blockedHeaders : List String :=
  ["connection", "keep-alive", "proxy-authenticate", "proxy-authorization", "te",
   "trailers", "transfer-encoding", "upgrade", "content-security-policy",
   "content-security-policy-report-only", "x-frame-options", "strict-transport-security",
   "report-to", "nel", "cross-origin-opener-policy", "cross-origin-embedder-policy",
   "cross-origin-resource-policy"]

/-- The callback of `upstream.headers.forEach`: a header whose lower-case name
is not blocked is set on the response, and a throw of `setHeader` is ignored. -/
def mirrorHeader (P : Platform) (st : St) (kv : String × String) : St :=
  if !blockedHeaders.contains (toLowerCase P kv.1) then
    match st.setHeader kv.1 kv.2 with
    | .ok st' => st'
    | .error _ => st
  else st

/-- The usage message of the source. -/
def usage : String :=
  "Usage: /?url=https%3A%2F%2Fexample.com  or  /?https://example.com"

/-- The body of the `try` block of `handler`. -/
def tryBlock (P : Platform) (req : Request) (st : St) : Except Thrown St :=
  if req.method = "OPTIONS" then do
    let st ← setCors st
    pure (st.status 204).finish
  else if req.method ≠ "GET" ∧ req.method ≠ "HEAD" then do
    let st ← setCors st
    pure ((st.status 405).send "Method not allowed")
  else
    match target req.query with
    | none => do
      let st ← setCors st
      pure ((st.status 400).send usage)
    | some t =>
      if t = "" then do
        let st ← setCors st
        pure ((st.status 400).send usage)
      else if forbiddenSchemesTest t then do
        let st ← setCors st
        pure ((st.status 400).send "Disallowed URL scheme")
      else if includes (toLowerCase P t) (host P req) then do
        let st ← setCors st
        pure ((st.status 400).send "Refusing to proxy to self")
      else
        let st := { st with calls := st.calls ++ [⟨t, fetchInit req⟩] }
        match P.fetch t (fetchInit req) with
        | .rejects err => .error (err, st)
        | .resolves upstream => do
          let st := st.status upstream.status
          let st := upstream.headers.foldl (mirrorHeader P) st
          let st ← setCors st
          if req.method = "HEAD" ∨ upstream.status = 204 then
            pure st.finish
          else
            match upstream.body with
            | .piped chunks => pure (st.pipe chunks)
            | .plain (.ok buf) => pure (st.finishWith buf)
            | .plain (.error err) => .error (err, st)

/-- The function `handler` of the source, run on a fresh response object: the
`try` block, and the `catch` block on the state the throw left. -/
def handler (P : Platform) (req : Request) : Except Thrown St :=
  match tryBlock P req St.init with
  | .ok st => .ok st
  | .error (err, st) => do
    let st ← setCors st
    pure ((st.status 502).send ("Proxy error: " ++ errText err))

/-- The header table after the three calls of `setCors`. -/
def corsHeaders (hs : List (String × String)) : List (String × String) :=
  storeHeader
    (storeHeader (storeHeader hs "Access-Control-Allow-Origin" "*")
      "Access-Control-Allow-Headers" "Origin, X-Requested-With, Content-Type, Accept")
    "Access-Control-Allow-Methods" "GET,HEAD,OPTIONS"

/-- The state after `setCors`. -/
def corsSt (st : St) : St :=
  { st with res := { st.res with headers := corsHeaders st.res.headers } }

/-- The state after the status and the headers of the upstream response are
mirrored, before `setCors`. -/
def mirrored (P : Platform) (up : Upstream) (st : St) : St :=
  up.headers.foldl (mirrorHeader P) (st.status up.status)

/-- The state at the outbound fetch of the target `t`. -/
def atFetch (req : Request) (t : String) : St :=
  { St.init with calls := St.init.calls ++ [⟨t, fetchInit req⟩] }

/-- The bytes of the upstream body: the chunks of a piped body in order, or the
bytes `arrayBuffer()` resolves with; none when `arrayBuffer()` rejects. -/
def UpstreamBody.bytes : UpstreamBody → Option Bytes
  | .piped chunks => some chunks.flatten
  | .plain (.ok buf) => some buf
  | .plain (.error _) => none

/-- A request whose method is GET or HEAD and whose target `t` is extracted and
passes both checks, so that the handler fetches it. -/
def Accepted (P : Platform) (req : Request) (t : String) : Prop :=
  (req.method = "GET" ∨ req.method = "HEAD") ∧ target req.query = some t ∧ t ≠ "" ∧
    forbiddenSchemesTest t = false ∧ includes (toLowerCase P t) (host P req) = false

/-- The header table holds the header `name: value`, and every header of that
name, letter case ignored, has this value. -/
def HasExactly (hs : List (String × String)) (name value : String) : Prop :=
  (name, value) ∈ hs ∧ ∀ h ∈ hs, asciiLower h.1 = asciiLower name → h.2 = value

/-- Every header of the table has a valid name that is not blocked. -/
def Unblocked (P : Platform) (hs : List (String × String)) : Prop :=
  ∀ h ∈ hs, validHeaderName h.1 = true ∧ blockedHeaders.contains (toLowerCase P h.1) = false

/-- The names of the three headers of `setCors`, in lower case. -/
def corsNames : List String :=
  ["access-control-allow-origin", "access-control-allow-headers",
   "access-control-allow-methods"]

/-! ## Sample platform and requests -/

/-- A platform whose every fetch resolves with the given response. -/
def constPlatform (up : Upstream) : Platform :=
  { lowerNonAscii := fun c => [c], fetch := fun _ _ => .resolves up }

/-- An upstream response that carries blocked headers, headers named like the
three headers of `setCors`, and two headers of one name. -/
def sampleUpstream : Upstream :=
  { status := 200,
    headers :=
      [("content-type", "text/plain"), ("x-frame-options", "DENY"),
       ("access-control-allow-origin", "https://a.example"),
       ("set-cookie", "a=1"), ("set-cookie", "b=2"), ("Connection", "close")],
    body := .plain (.ok [104, 105]) }

/-- A platform whose every fetch resolves with `sampleUpstream`. -/
def samplePlatform : Platform :=
  constPlatform sampleUpstream

/-- The request `GET /?url=https://example.com` with the host `proxy.example.com`. -/
def getRequest : Request :=
  { method := "GET", query := [("url", some "https://example.com")],
    headers := [("host", "proxy.example.com")] }

/-- The request `POST /?url=https://example.com`. -/
def postRequest : Request :=
  { getRequest with method := "POST" }

/-- The request `GET /?url=javascript:alert(1)`. -/
def scriptRequest : Request :=
  { getRequest with query := [("url", some "javascript:alert(1)")] }

/-- The request `GET /?url=https://Proxy.Example.com/evil` with the host
`proxy.example.com`. -/
def selfRequest : Request :=
  { getRequest with query := [("url", some "https://Proxy.Example.com/evil")] }

/-- The request `GET /?url=https://example.com` without a `Host` header. -/
def hostlessRequest : Request :=
  { getRequest with headers := [] }

/-- A platform whose every fetch resolves with the status 200 and a body that
fails while `arrayBuffer()` reads it. -/
def brokenBodyPlatform : Platform :=
  constPlatform { status := 200, headers := [], body := .plain (.error ⟨"TypeError", "terminated"⟩) }

/-- A platform whose every fetch resolves with `sampleUpstream`, its body piped
in two chunks. -/
def pipedPlatform : Platform :=
  constPlatform { sampleUpstream with body := .piped [[104], [105]] }

/-- A platform whose every fetch resolves with a response that names one
allowed origin. -/
def originPlatform : Platform :=
  constPlatform
    { status := 200, headers := [("access-control-allow-origin", "https://a.example")],
      body := .plain (.ok []) }

/-- The request `GET /?https://example.com`, the lazy form. -/
def lazyRequest : Request :=
  { getRequest with query := [("https://example.com", some "")] }

/-- The request `GET /?http://a.example/?x=1`: the sole key of the query has
the value `1`. -/
def valuedKeyRequest : Request :=
  { getRequest with query := [("http://a.example/?x", some "1")] }

/-- A platform whose every fetch rejects with the given error. -/
def failPlatform (e : JsError) : Platform :=
  { lowerNonAscii := fun c => [c], fetch := fun _ _ => .rejects e }

/-! ## The header table -/

theorem mem_storeHeader {hs : List (String × String)} {n v : String} {h : String × String}
    (hmem : h ∈ storeHeader hs n v) : h ∈ hs ∨ h = (n, v) := by
  unfold storeHeader at hmem
  split at hmem
  · obtain ⟨h', hh', rfl⟩ := List.mem_map.1 hmem
    by_cases c : asciiLower h'.1 = asciiLower n
    · right; simp [c]
    · left; simpa [c] using hh'
  · rcases List.mem_append.1 hmem with h1 | h1
    · exact Or.inl h1
    · exact Or.inr (by simpa using h1)

theorem hasExactly_storeHeader (hs : List (String × String)) (n v : String) :
    HasExactly (storeHeader hs n v) n v := by
  unfold HasExactly storeHeader
  split
  next hany =>
    obtain ⟨h', hh', hk⟩ := List.any_eq_true.1 hany
    have hk' : asciiLower h'.1 = asciiLower n := by simpa using hk
    refine ⟨List.mem_map.2 ⟨h', hh', by simp [hk']⟩, ?_⟩
    intro h hmem hl
    obtain ⟨g, _, rfl⟩ := List.mem_map.1 hmem
    by_cases c : asciiLower g.1 = asciiLower n
    · simp [c]
    · simp [c] at hl
  next hany =>
    refine ⟨by simp, ?_⟩
    intro h hmem hl
    rcases List.mem_append.1 hmem with h1 | h1
    · exact absurd (List.any_eq_true.2 ⟨h, h1, by simpa using hl⟩) hany
    · have : h = (n, v) := by simpa using h1
      simp [this]

theorem hasExactly_storeHeader_of_ne {hs : List (String × String)} {n v n' v' : String}
    (hne : asciiLower n' ≠ asciiLower n) (hex : HasExactly hs n v) :
    HasExactly (storeHeader hs n' v') n v := by
  obtain ⟨hin, hall⟩ := hex
  have hne' : ¬ asciiLower n = asciiLower n' := fun c => hne c.symm
  unfold HasExactly storeHeader
  split
  · refine ⟨List.mem_map.2 ⟨(n, v), hin, by simp [hne']⟩, ?_⟩
    intro h hmem hl
    obtain ⟨g, hg, rfl⟩ := List.mem_map.1 hmem
    by_cases c : asciiLower g.1 = asciiLower n'
    · simp [c] at hl
      exact absurd hl hne
    · simp [c] at hl ⊢
      exact hall g hg hl
  · refine ⟨List.mem_append.2 (Or.inl hin), ?_⟩
    intro h hmem hl
    rcases List.mem_append.1 hmem with h1 | h1
    · exact hall h h1 hl
    · have : h = (n', v') := by simpa using h1
      subst this
      exact absurd hl hne

theorem hasExactly_corsHeaders (hs : List (String × String)) :
    HasExactly (corsHeaders hs) "Access-Control-Allow-Origin" "*" ∧
    HasExactly (corsHeaders hs) "Access-Control-Allow-Headers"
      "Origin, X-Requested-With, Content-Type, Accept" ∧
    HasExactly (corsHeaders hs) "Access-Control-Allow-Methods" "GET,HEAD,OPTIONS" := by
  unfold corsHeaders
  refine ⟨?_, ?_, ?_⟩
  · exact hasExactly_storeHeader_of_ne (by decide)
      (hasExactly_storeHeader_of_ne (by decide) (hasExactly_storeHeader _ _ _))
  · exact hasExactly_storeHeader_of_ne (by decide) (hasExactly_storeHeader _ _ _)
  · exact hasExactly_storeHeader _ _ _

theorem toNat_lt_of_isTokenChar {c : Char} (h : isTokenChar c = true) : c.toNat < 128 := by
  simp [isTokenChar] at h
  omega

theorem flatMap_lowerChar (P : Platform) (l : List Char) (h : ∀ c ∈ l, c.toNat < 128) :
    l.flatMap (lowerChar P) = l.map Char.toLower := by
  induction l with
  | nil => rfl
  | cons a l ih =>
    have ha : a.toNat < 128 := h a (List.mem_cons_self _ _)
    have hl : ∀ c ∈ l, c.toNat < 128 := fun c hc => h c (List.mem_cons_of_mem _ hc)
    simp [List.flatMap_cons, lowerChar, ha, ih hl]

theorem toLowerCase_of_ascii (P : Platform) (s : String) (h : ∀ c ∈ s.data, c.toNat < 128) :
    toLowerCase P s = asciiLower s := by
  simp [toLowerCase, asciiLower, flatMap_lowerChar P s.data h]

theorem toLowerCase_of_valid (P : Platform) (s : String) (h : validHeaderName s = true) :
    toLowerCase P s = asciiLower s := by
  apply toLowerCase_of_ascii
  intro c hc
  simp [validHeaderName] at h
  exact toNat_lt_of_isTokenChar (h.2 c hc)

theorem blockedHeaders_lower (P : Platform) {b : String} (hb : b ∈ blockedHeaders) :
    toLowerCase P b = b ∧ asciiLower b = b := by
  have h : ∀ b ∈ blockedHeaders, (b.data.all fun c => decide (c.toNat < 128)) = true ∧
      asciiLower b = b := by decide
  obtain ⟨h1, h2⟩ := h b hb
  refine ⟨?_, h2⟩
  rw [toLowerCase_of_ascii P b (by simpa using h1), h2]

theorem unblocked_storeHeader {P : Platform} {hs : List (String × String)} {n v : String}
    (hs_ok : Unblocked P hs) (hn : validHeaderName n = true)
    (hb : blockedHeaders.contains (toLowerCase P n) = false) :
    Unblocked P (storeHeader hs n v) := by
  intro h hmem
  rcases mem_storeHeader hmem with h1 | h1
  · exact hs_ok h h1
  · subst h1
    exact ⟨hn, hb⟩

theorem unblocked_mirrorHeader {P : Platform} {st : St} (kv : String × String)
    (h : Unblocked P st.res.headers) : Unblocked P (mirrorHeader P st kv).res.headers := by
  unfold mirrorHeader
  by_cases hb : toLowerCase P kv.1 ∈ blockedHeaders
  · simpa [hb] using h
  · have hb' : blockedHeaders.contains (toLowerCase P kv.1) = false := by simpa using hb
    by_cases hn : validHeaderName kv.1 = true
    · by_cases hv : validHeaderValue kv.2 = true
      · simpa [hb, St.setHeader, hn, hv] using
          unblocked_storeHeader (v := kv.2) h hn hb'
      · simpa [hb, St.setHeader, hn, hv] using h
    · simpa [hb, St.setHeader, hn] using h

theorem unblocked_foldl {P : Platform} (l : List (String × String)) (st : St)
    (h : Unblocked P st.res.headers) :
    Unblocked P (l.foldl (mirrorHeader P) st).res.headers := by
  induction l generalizing st with
  | nil => simpa using h
  | cons kv l ih => exact ih _ (unblocked_mirrorHeader kv h)

theorem unblocked_mirrored (P : Platform) (up : Upstream) (req : Request) (t : String) :
    Unblocked P (mirrored P up (atFetch req t)).res.headers := by
  unfold mirrored
  apply unblocked_foldl
  intro h hmem
  simp [atFetch, St.init, St.status] at hmem

theorem unblocked_corsHeaders {P : Platform} {hs : List (String × String)}
    (h : Unblocked P hs) : Unblocked P (corsHeaders hs) := by
  have a1 : ∀ c ∈ "Access-Control-Allow-Origin".data, c.toNat < 128 := by decide
  have a2 : ∀ c ∈ "Access-Control-Allow-Headers".data, c.toNat < 128 := by decide
  have a3 : ∀ c ∈ "Access-Control-Allow-Methods".data, c.toNat < 128 := by decide
  unfold corsHeaders
  refine unblocked_storeHeader (unblocked_storeHeader (unblocked_storeHeader h ?_ ?_) ?_ ?_)
    ?_ ?_
  · decide
  · rw [toLowerCase_of_ascii P _ a1]; decide
  · decide
  · rw [toLowerCase_of_ascii P _ a2]; decide
  · decide
  · rw [toLowerCase_of_ascii P _ a3]; decide

/-! ## The paths of the handler -/

theorem setCors_eq (st : St) : setCors st = .ok (corsSt st) := by
  have h1 : validHeaderName "Access-Control-Allow-Origin" = true := by decide
  have h2 : validHeaderName "Access-Control-Allow-Headers" = true := by decide
  have h3 : validHeaderName "Access-Control-Allow-Methods" = true := by decide
  have v1 : validHeaderValue "*" = true := by decide
  have v2 : validHeaderValue "Origin, X-Requested-With, Content-Type, Accept" = true := by
    decide
  have v3 : validHeaderValue "GET,HEAD,OPTIONS" = true := by decide
  simp [setCors, St.setHeader, h1, h2, h3, v1, v2, v3, bind, Except.bind, corsSt, corsHeaders]

theorem handler_options (P : Platform) (req : Request) (h : req.method = "OPTIONS") :
    handler P req = .ok ((corsSt St.init).status 204).finish := by
  simp [handler, tryBlock, h, setCors_eq, bind, Except.bind, pure, Except.pure]

theorem handler_other (P : Platform) (req : Request) (h1 : req.method ≠ "OPTIONS")
    (h2 : req.method ≠ "GET") (h3 : req.method ≠ "HEAD") :
    handler P req = .ok (((corsSt St.init).status 405).send "Method not allowed") := by
  simp [handler, tryBlock, h1, h2, h3, setCors_eq, bind, Except.bind, pure, Except.pure]

theorem not_options_of_get_or_head {m : String} (hm : m = "GET" ∨ m = "HEAD") :
    m ≠ "OPTIONS" ∧ ¬ (m ≠ "GET" ∧ m ≠ "HEAD") := by
  rcases hm with h | h <;> subst h <;> decide

theorem handler_usage (P : Platform) (req : Request)
    (hm : req.method = "GET" ∨ req.method = "HEAD")
    (ht : target req.query = none ∨ target req.query = some "") :
    handler P req = .ok (((corsSt St.init).status 400).send usage) := by
  obtain ⟨h1, h2⟩ := not_options_of_get_or_head hm
  rcases ht with ht | ht <;>
    simp [handler, tryBlock, h1, h2, ht, setCors_eq, bind, Except.bind, pure, Except.pure]

theorem handler_forbidden (P : Platform) (req : Request) (t : String)
    (hm : req.method = "GET" ∨ req.method = "HEAD")
    (ht : target req.query = some t) (hne : t ≠ "") (hf : forbiddenSchemesTest t = true) :
    handler P req = .ok (((corsSt St.init).status 400).send "Disallowed URL scheme") := by
  obtain ⟨h1, h2⟩ := not_options_of_get_or_head hm
  simp [handler, tryBlock, h1, h2, ht, hne, hf, setCors_eq, bind, Except.bind, pure,
    Except.pure]

theorem handler_self (P : Platform) (req : Request) (t : String)
    (hm : req.method = "GET" ∨ req.method = "HEAD")
    (ht : target req.query = some t) (hne : t ≠ "") (hf : forbiddenSchemesTest t = false)
    (hs : includes (toLowerCase P t) (host P req) = true) :
    handler P req = .ok (((corsSt St.init).status 400).send "Refusing to proxy to self") := by
  obtain ⟨h1, h2⟩ := not_options_of_get_or_head hm
  simp [handler, tryBlock, h1, h2, ht, hne, hf, hs, setCors_eq, bind, Except.bind, pure,
    Except.pure]

theorem handler_rejects (P : Platform) (req : Request) (t : String) (e : JsError)
    (ha : Accepted P req t) (hr : P.fetch t (fetchInit req) = .rejects e) :
    handler P req =
      .ok (((corsSt (atFetch req t)).status 502).send ("Proxy error: " ++ errText e)) := by
  obtain ⟨hm, ht, hne, hf, hs⟩ := ha
  obtain ⟨h1, h2⟩ := not_options_of_get_or_head hm
  simp [handler, tryBlock, h1, h2, ht, hne, hf, hs, hr, setCors_eq, bind, Except.bind, pure,
    Except.pure, atFetch]

theorem handler_empty (P : Platform) (req : Request) (t : String) (up : Upstream)
    (ha : Accepted P req t) (hr : P.fetch t (fetchInit req) = .resolves up)
    (he : req.method = "HEAD" ∨ up.status = 204) :
    handler P req = .ok (corsSt (mirrored P up (atFetch req t))).finish := by
  obtain ⟨hm, ht, hne, hf, hs⟩ := ha
  obtain ⟨h1, h2⟩ := not_options_of_get_or_head hm
  simp [handler, tryBlock, h1, h2, ht, hne, hf, hs, hr, he, setCors_eq, bind, Except.bind,
    pure, Except.pure, atFetch, mirrored]

theorem handler_piped (P : Platform) (req : Request) (t : String) (up : Upstream)
    (chunks : List Bytes)
    (ha : Accepted P req t) (hr : P.fetch t (fetchInit req) = .resolves up)
    (he : ¬ (req.method = "HEAD" ∨ up.status = 204)) (hb : up.body = .piped chunks) :
    handler P req = .ok ((corsSt (mirrored P up (atFetch req t))).pipe chunks) := by
  obtain ⟨hm, ht, hne, hf, hs⟩ := ha
  obtain ⟨h1, h2⟩ := not_options_of_get_or_head hm
  simp [handler, tryBlock, h1, h2, ht, hne, hf, hs, hr, he, hb, setCors_eq, bind,
    Except.bind, pure, Except.pure, atFetch, mirrored]

theorem handler_plain (P : Platform) (req : Request) (t : String) (up : Upstream)
    (buf : Bytes)
    (ha : Accepted P req t) (hr : P.fetch t (fetchInit req) = .resolves up)
    (he : ¬ (req.method = "HEAD" ∨ up.status = 204)) (hb : up.body = .plain (.ok buf)) :
    handler P req = .ok ((corsSt (mirrored P up (atFetch req t))).finishWith buf) := by
  obtain ⟨hm, ht, hne, hf, hs⟩ := ha
  obtain ⟨h1, h2⟩ := not_options_of_get_or_head hm
  simp [handler, tryBlock, h1, h2, ht, hne, hf, hs, hr, he, hb, setCors_eq, bind,
    Except.bind, pure, Except.pure, atFetch, mirrored]

theorem handler_plain_error (P : Platform) (req : Request) (t : String) (up : Upstream)
    (e : JsError)
    (ha : Accepted P req t) (hr : P.fetch t (fetchInit req) = .resolves up)
    (he : ¬ (req.method = "HEAD" ∨ up.status = 204)) (hb : up.body = .plain (.error e)) :
    handler P req =
      .ok (((corsSt (corsSt (mirrored P up (atFetch req t)))).status 502).send
        ("Proxy error: " ++ errText e)) := by
  obtain ⟨hm, ht, hne, hf, hs⟩ := ha
  obtain ⟨h1, h2⟩ := not_options_of_get_or_head hm
  simp [handler, tryBlock, h1, h2, ht, hne, hf, hs, hr, he, hb, setCors_eq, bind,
    Except.bind, pure, Except.pure, atFetch, mirrored]

/-- Every run of the handler returns, and the header table it leaves is the
table of `setCors` over headers that are valid and not blocked. -/
theorem handler_shape (P : Platform) (req : Request) :
    ∃ st hs, handler P req = .ok st ∧ st.res.headers = corsHeaders hs ∧ Unblocked P hs := by
  have hnil : Unblocked P [] := fun h hmem => by simp at hmem
  by_cases ho : req.method = "OPTIONS"
  · exact ⟨_, [], handler_options P req ho, rfl, hnil⟩
  by_cases hm : req.method = "GET" ∨ req.method = "HEAD"
  swap
  · have hm' : req.method ≠ "GET" ∧ req.method ≠ "HEAD" := by
      constructor <;> intro c <;> exact hm (by simp [c])
    exact ⟨_, [], handler_other P req ho hm'.1 hm'.2, rfl, hnil⟩
  cases ht : target req.query with
  | none => exact ⟨_, [], handler_usage P req hm (Or.inl ht), rfl, hnil⟩
  | some t =>
    by_cases hne : t = ""
    · subst hne
      exact ⟨_, [], handler_usage P req hm (Or.inr ht), rfl, hnil⟩
    cases hf : forbiddenSchemesTest t with
    | true => exact ⟨_, [], handler_forbidden P req t hm ht hne hf, rfl, hnil⟩
    | false =>
      cases hs : includes (toLowerCase P t) (host P req) with
      | true => exact ⟨_, [], handler_self P req t hm ht hne hf hs, rfl, hnil⟩
      | false =>
        have ha : Accepted P req t := ⟨hm, ht, hne, hf, hs⟩
        cases hr : P.fetch t (fetchInit req) with
        | rejects e => exact ⟨_, [], handler_rejects P req t e ha hr, rfl, hnil⟩
        | resolves up =>
          have hu := unblocked_mirrored P up req t
          by_cases he : req.method = "HEAD" ∨ up.status = 204
          · exact ⟨_, _, handler_empty P req t up ha hr he, rfl, hu⟩
          cases hb : up.body with
          | piped chunks => exact ⟨_, _, handler_piped P req t up chunks ha hr he hb, rfl, hu⟩
          | plain r =>
            cases r with
            | ok buf => exact ⟨_, _, handler_plain P req t up buf ha hr he hb, rfl, hu⟩
            | error e =>
              exact ⟨_, _, handler_plain_error P req t up e ha hr he hb, rfl,
                unblocked_corsHeaders hu⟩

/-! ## What the mirroring leaves unchanged, and the checks -/

theorem mirrorHeader_fields (P : Platform) (st : St) (kv : String × String) :
    (mirrorHeader P st kv).calls = st.calls ∧
    (mirrorHeader P st kv).res.statusCode = st.res.statusCode ∧
    (mirrorHeader P st kv).res.body = st.res.body ∧
    (mirrorHeader P st kv).res.ended = st.res.ended := by
  unfold mirrorHeader St.setHeader
  by_cases hb : toLowerCase P kv.1 ∈ blockedHeaders
  · simp [hb]
  · by_cases hn : validHeaderName kv.1 = true <;> by_cases hv : validHeaderValue kv.2 = true <;>
      simp [hb, hn, hv]

theorem foldl_mirrorHeader_fields (P : Platform) (l : List (String × String)) (st : St) :
    (l.foldl (mirrorHeader P) st).calls = st.calls ∧
    (l.foldl (mirrorHeader P) st).res.statusCode = st.res.statusCode ∧
    (l.foldl (mirrorHeader P) st).res.body = st.res.body ∧
    (l.foldl (mirrorHeader P) st).res.ended = st.res.ended := by
  induction l generalizing st with
  | nil => simp
  | cons kv l ih =>
    obtain ⟨h1, h2, h3, h4⟩ := ih (mirrorHeader P st kv)
    obtain ⟨g1, g2, g3, g4⟩ := mirrorHeader_fields P st kv
    simp only [List.foldl_cons]
    exact ⟨h1.trans g1, h2.trans g2, h3.trans g3, h4.trans g4⟩

theorem mirrored_fields (P : Platform) (up : Upstream) (req : Request) (t : String) :
    (mirrored P up (atFetch req t)).calls = [⟨t, fetchInit req⟩] ∧
    (mirrored P up (atFetch req t)).res.statusCode = up.status ∧
    (mirrored P up (atFetch req t)).res.body = [] := by
  obtain ⟨h1, h2, h3, _⟩ :=
    foldl_mirrorHeader_fields P up.headers ((atFetch req t).status up.status)
  unfold mirrored
  rw [h1, h2, h3]
  simp [atFetch, St.status, St.init]

/-- Every run on an accepted target returns, with exactly one fetch, of the
target as it is and with the options of the source. -/
theorem handler_accepted (P : Platform) (req : Request) (t : String)
    (ha : Accepted P req t) :
    ∃ st, handler P req = .ok st ∧ st.calls = [⟨t, fetchInit req⟩] := by
  cases hr : P.fetch t (fetchInit req) with
  | rejects e =>
    exact ⟨_, handler_rejects P req t e ha hr, by simp [corsSt, St.status, St.send, atFetch,
      St.init]⟩
  | resolves up =>
    obtain ⟨hc, _, _⟩ := mirrored_fields P up req t
    by_cases he : req.method = "HEAD" ∨ up.status = 204
    · exact ⟨_, handler_empty P req t up ha hr he, by simpa [corsSt, St.finish] using hc⟩
    cases hb : up.body with
    | piped chunks =>
      exact ⟨_, handler_piped P req t up chunks ha hr he hb, by
        simpa [corsSt, St.pipe] using hc⟩
    | plain r =>
      cases r with
      | ok buf =>
        exact ⟨_, handler_plain P req t up buf ha hr he hb, by
          simpa [corsSt, St.finishWith] using hc⟩
      | error e =>
        exact ⟨_, handler_plain_error P req t up e ha hr he hb, by
          simpa [corsSt, St.status, St.send] using hc⟩

theorem map_take_eq_iff_prefix {α β : Type} (f : α → β) (l : List α) (q : List β) :
    (l.take q.length).map f = q ↔ q <+: l.map f := by
  rw [List.prefix_iff_eq_take, List.map_take]
  exact eq_comm

theorem forbiddenSchemesTest_iff (t : String) :
    forbiddenSchemesTest t = true ↔ ∃ p ∈ forbiddenSchemes, p.data <+: (asciiLower t).data := by
  have key : ∀ p : String, asciiLower (String.mk (t.data.take p.length)) = p ↔
      p.data <+: (asciiLower t).data := by
    intro p
    rw [String.ext_iff]
    exact map_take_eq_iff_prefix Char.toLower t.data p.data
  unfold forbiddenSchemesTest
  rw [List.any_eq_true]
  constructor
  · rintro ⟨p, hp, h⟩
    exact ⟨p, hp, (key p).1 (by simpa using h)⟩
  · rintro ⟨p, hp, h⟩
    exact ⟨p, hp, by simpa using (key p).2 h⟩

theorem includes_iff (s sub : String) : includes s sub = true ↔ sub.data <:+: s.data := by
  unfold includes
  rw [List.any_eq_true, List.infix_iff_prefix_suffix]
  constructor
  · rintro ⟨x, hx, h⟩
    exact ⟨x, List.isPrefixOf_iff_prefix.1 h, (List.mem_tails _ _).1 hx⟩
  · rintro ⟨x, h, hx⟩
    exact ⟨x, (List.mem_tails _ _).2 hx, List.isPrefixOf_iff_prefix.2 h⟩

theorem host_of_header (P : Platform) (req : Request) (h : String)
    (hh : headerGet req.headers "host" = some h) : host P req = toLowerCase P h := by
  unfold host jsOr
  rw [hh]
  by_cases c : h = "" <;> simp [c]

theorem host_of_empty (P : Platform) (req : Request)
    (hh : headerGet req.headers "host" = none ∨ headerGet req.headers "host" = some "") :
    host P req = "" := by
  unfold host jsOr
  rcases hh with hh | hh <;> rw [hh] <;> rfl

theorem includes_empty (s : String) : includes s "" = true := by
  rw [includes_iff]
  exact List.nil_infix

/-! ## Mirrored headers -/

theorem mem_storeHeader_of_ne {hs : List (String × String)} {n v : String}
    {h : String × String} (hmem : h ∈ hs) (hne : asciiLower h.1 ≠ asciiLower n) :
    h ∈ storeHeader hs n v := by
  unfold storeHeader
  split
  · exact List.mem_map.2 ⟨h, hmem, by simp [hne]⟩
  · exact List.mem_append.2 (Or.inl hmem)

theorem mem_corsHeaders_of_not_cors {hs : List (String × String)} {h : String × String}
    (hmem : h ∈ hs) (hn : asciiLower h.1 ∉ corsNames) : h ∈ corsHeaders hs := by
  have e1 : asciiLower "Access-Control-Allow-Origin" = "access-control-allow-origin" := by
    decide
  have e2 : asciiLower "Access-Control-Allow-Headers" = "access-control-allow-headers" := by
    decide
  have e3 : asciiLower "Access-Control-Allow-Methods" = "access-control-allow-methods" := by
    decide
  simp only [corsNames, List.mem_cons, List.mem_singleton, List.not_mem_nil, or_false,
    not_or] at hn
  unfold corsHeaders
  refine mem_storeHeader_of_ne (mem_storeHeader_of_ne (mem_storeHeader_of_ne hmem ?_) ?_) ?_
  · rw [e1]; exact hn.1
  · rw [e2]; exact hn.2.1
  · rw [e3]; exact hn.2.2

/-- The callback of `forEach` sets a header that is valid and not blocked. -/
theorem mem_mirrorHeader_self (P : Platform) (st : St) (k v : String)
    (hb : toLowerCase P k ∉ blockedHeaders) (hn : validHeaderName k = true)
    (hv : validHeaderValue v = true) : (k, v) ∈ (mirrorHeader P st (k, v)).res.headers := by
  simp [mirrorHeader, hb, St.setHeader, hn, hv, (hasExactly_storeHeader _ k v).1]

/-- The callback of `forEach` keeps a header that is set, unless it is called
with another header of the same name. -/
theorem mem_mirrorHeader_of_mem (P : Platform) (st : St) (k v : String)
    (kv : String × String) (hmem : (k, v) ∈ st.res.headers)
    (hsame : asciiLower kv.1 = asciiLower k → kv = (k, v)) :
    (k, v) ∈ (mirrorHeader P st kv).res.headers := by
  unfold mirrorHeader St.setHeader
  by_cases hb : toLowerCase P kv.1 ∈ blockedHeaders
  · simpa [hb] using hmem
  by_cases hn : validHeaderName kv.1 = true
  swap
  · simpa [hb, hn] using hmem
  by_cases hv : validHeaderValue kv.2 = true
  swap
  · simpa [hb, hn, hv] using hmem
  simp only [hb, hn, hv, List.elem_eq_mem, decide_False, Bool.not_false, if_true]
  by_cases hk : asciiLower kv.1 = asciiLower k
  · rw [hsame hk]
    exact (hasExactly_storeHeader _ k v).1
  · exact mem_storeHeader_of_ne hmem (fun c => hk c.symm)

theorem mem_foldl_mirrorHeader_of_mem (P : Platform) (l : List (String × String)) (st : St)
    (k v : String) (hmem : (k, v) ∈ st.res.headers)
    (hsame : ∀ kv ∈ l, asciiLower kv.1 = asciiLower k → kv = (k, v)) :
    (k, v) ∈ (l.foldl (mirrorHeader P) st).res.headers := by
  induction l generalizing st with
  | nil => simpa using hmem
  | cons kv l ih =>
    exact ih _ (mem_mirrorHeader_of_mem P st k v kv hmem (hsame kv (List.mem_cons_self _ _)))
      (fun kv' h' => hsame kv' (List.mem_cons_of_mem _ h'))

theorem mem_foldl_mirrorHeader (P : Platform) (l : List (String × String)) (st : St)
    (k v : String) (hin : (k, v) ∈ l)
    (hb : toLowerCase P k ∉ blockedHeaders) (hn : validHeaderName k = true)
    (hv : validHeaderValue v = true)
    (hsame : ∀ kv ∈ l, asciiLower kv.1 = asciiLower k → kv = (k, v)) :
    (k, v) ∈ (l.foldl (mirrorHeader P) st).res.headers := by
  induction l generalizing st with
  | nil => simp at hin
  | cons kv l ih =>
    have hl : ∀ kv' ∈ l, asciiLower kv'.1 = asciiLower k → kv' = (k, v) :=
      fun kv' h' => hsame kv' (List.mem_cons_of_mem _ h')
    rcases List.mem_cons.1 hin with h1 | h1
    · subst h1
      exact mem_foldl_mirrorHeader_of_mem P l _ k v (mem_mirrorHeader_self P st k v hb hn hv) hl
    · exact ih _ h1 hl

/-! ## The target -/

theorem target_of_url (q : List (String × Option String)) (v : String)
    (hv : queryGet q "url" = some v) (hne : v ≠ "") : target q = some v := by
  simp [target, hv, truthy, hne]

theorem target_of_falsy_url (q : List (String × Option String))
    (hu : queryGet q "url" = none ∨ queryGet q "url" = some "") :
    target q =
      if (objectKeys q).length = 1 ∧ startsWith ((objectKeys q).headD "") "http" = true then
        some ((objectKeys q).headD "")
      else queryGet q "url" := by
  unfold target
  rcases hu with hu | hu <;> rw [hu] <;> rfl

theorem target_of_sole_key (q : List (String × Option String)) (k : String)
    (hu : queryGet q "url" = none ∨ queryGet q "url" = some "")
    (hk : objectKeys q = [k]) (hp : "http".data <+: k.data) : target q = some k := by
  have hs : startsWith k "http" = true := List.isPrefixOf_iff_prefix.2 hp
  have hcond : (objectKeys q).length = 1 ∧
      startsWith ((objectKeys q).headD "") "http" = true := by
    rw [hk]
    exact ⟨rfl, hs⟩
  rw [target_of_falsy_url q hu, if_pos hcond, hk]
  rfl

theorem target_of_no_sole_key (q : List (String × Option String))
    (hu : queryGet q "url" = none ∨ queryGet q "url" = some "")
    (hk : ¬ ∃ k, objectKeys q = [k] ∧ "http".data <+: k.data) :
    target q = none ∨ target q = some "" := by
  have hcond : ¬ ((objectKeys q).length = 1 ∧
      startsWith ((objectKeys q).headD "") "http" = true) := by
    rintro ⟨hl, hs⟩
    obtain ⟨k, hk'⟩ := List.length_eq_one.1 hl
    rw [hk'] at hs
    exact hk ⟨k, hk', List.isPrefixOf_iff_prefix.1 hs⟩
  rw [target_of_falsy_url q hu, if_neg hcond]
  exact hu

/-- The fetches of a run on a GET or HEAD request: none, or one, of the target
as it is. -/
theorem handler_calls (P : Platform) (req : Request)
    (hm : req.method = "GET" ∨ req.method = "HEAD") :
    ∃ st, handler P req = .ok st ∧
      (st.calls = [] ∨ ∃ t, Accepted P req t ∧ st.calls = [⟨t, fetchInit req⟩]) := by
  cases ht : target req.query with
  | none => exact ⟨_, handler_usage P req hm (Or.inl ht), Or.inl rfl⟩
  | some t =>
    by_cases hne : t = ""
    · subst hne
      exact ⟨_, handler_usage P req hm (Or.inr ht), Or.inl rfl⟩
    cases hf : forbiddenSchemesTest t with
    | true => exact ⟨_, handler_forbidden P req t hm ht hne hf, Or.inl rfl⟩
    | false =>
      cases hs : includes (toLowerCase P t) (host P req) with
      | true => exact ⟨_, handler_self P req t hm ht hne hf hs, Or.inl rfl⟩
      | false =>
        have ha : Accepted P req t := ⟨hm, ht, hne, hf, hs⟩
        obtain ⟨st, hok, hc⟩ := handler_accepted P req t ha
        exact ⟨st, hok, Or.inr ⟨t, ha, hc⟩⟩

/-! ## The claims -/

/-- C1: every run of the handler returns a response that carries the three CORS
headers `Access-Control-Allow-Origin: *`, `Access-Control-Allow-Headers: Origin,
X-Requested-With, Content-Type, Accept` and `Access-Control-Allow-Methods:
GET,HEAD,OPTIONS`, and every header of the response with one of these names
(letter case ignored) has exactly this value, whatever the request, the outcome
of the fetch and the headers of the upstream response are. -/
theorem cors_headers_on_every_response (P : Platform) (req : Request) :
    ∃ st, handler P req = .ok st ∧
      HasExactly st.res.headers "Access-Control-Allow-Origin" "*" ∧
      HasExactly st.res.headers "Access-Control-Allow-Headers"
        "Origin, X-Requested-With, Content-Type, Accept" ∧
      HasExactly st.res.headers "Access-Control-Allow-Methods" "GET,HEAD,OPTIONS" := by
  obtain ⟨st, hs, hok, hh, _⟩ := handler_shape P req
  exact ⟨st, hok, by rw [hh]; exact hasExactly_corsHeaders hs⟩

/-- C2: every run of the handler returns a response none of whose headers has a
name that equals, letter case ignored, a name of the block-list, whatever
headers the upstream response has; the letter case is ignored both in the ASCII
sense and in the sense of `toLowerCase`. -/
theorem blocked_headers_absent (P : Platform) (req : Request) :
    ∃ st, handler P req = .ok st ∧
      ∀ h ∈ st.res.headers, ∀ b ∈ blockedHeaders,
        asciiLower h.1 ≠ asciiLower b ∧ toLowerCase P h.1 ≠ toLowerCase P b := by
  obtain ⟨st, hs, hok, hh, hu⟩ := handler_shape P req
  refine ⟨st, hok, ?_⟩
  intro h hmem b hb
  rw [hh] at hmem
  obtain ⟨hv, hnb⟩ := unblocked_corsHeaders hu h hmem
  obtain ⟨hb1, hb2⟩ := blockedHeaders_lower P hb
  have hnot : toLowerCase P h.1 ∉ blockedHeaders := by simpa using hnb
  rw [hb1, hb2]
  constructor
  · intro c
    rw [← toLowerCase_of_valid P h.1 hv] at c
    exact hnot (c ▸ hb)
  · intro c
    exact hnot (c ▸ hb)

/-- C7: a request with the method OPTIONS gets the status 204 and an empty body,
a request with a method other than GET, HEAD and OPTIONS gets the status 405
and the body `Method not allowed`, both without an upstream fetch and whatever
the query and the headers are; a run that issues a fetch has the method GET or
HEAD. -/
theorem method_gating (P : Platform) (req : Request) :
    (req.method = "OPTIONS" →
      ∃ st, handler P req = .ok st ∧ st.res.statusCode = 204 ∧ st.res.body = [] ∧
        st.res.ended = true ∧ st.calls = []) ∧
    (req.method ≠ "GET" → req.method ≠ "HEAD" → req.method ≠ "OPTIONS" →
      ∃ st, handler P req = .ok st ∧ st.res.statusCode = 405 ∧
        st.res.body = [Payload.text "Method not allowed"] ∧ st.res.ended = true ∧
        st.calls = []) ∧
    (∀ st, handler P req = .ok st → st.calls ≠ [] →
      req.method = "GET" ∨ req.method = "HEAD") := by
  refine ⟨?_, ?_, ?_⟩
  · intro ho
    exact ⟨_, handler_options P req ho, rfl, rfl, rfl, rfl⟩
  · intro h2 h3 h1
    exact ⟨_, handler_other P req h1 h2 h3, rfl, rfl, rfl, rfl⟩
  · intro st hok hcalls
    by_contra hm
    have hm' : req.method ≠ "GET" ∧ req.method ≠ "HEAD" := by
      constructor <;> intro c <;> exact hm (by simp [c])
    by_cases ho : req.method = "OPTIONS"
    · rw [handler_options P req ho] at hok
      cases hok
      exact hcalls rfl
    · rw [handler_other P req ho hm'.1 hm'.2] at hok
      cases hok
      exact hcalls rfl

/-- C7, at `POST /?url=https://example.com`: the status is 405, the body is
`Method not allowed` and no fetch is issued. -/
theorem method_gating_witness :
    ∃ st, handler samplePlatform postRequest = .ok st ∧ st.res.statusCode = 405 ∧
      st.res.body = [Payload.text "Method not allowed"] ∧ st.res.ended = true ∧
      st.calls = [] :=
  (method_gating samplePlatform postRequest).2.1 (by decide) (by decide) (by decide)

/-- C5: for a GET or HEAD request with an extracted target, the response is 400
with the body `Disallowed URL scheme` and without an upstream fetch if and only
if the target begins, ASCII letter case ignored, with one of `about:`, `chrome:`,
`file:`, `data:`, `vbscript:`, `javascript:`; the `Host` header has no part in
it. -/
theorem forbidden_scheme_rejected (P : Platform) (req : Request) (t : String)
    (hm : req.method = "GET" ∨ req.method = "HEAD")
    (ht : target req.query = some t) (hne : t ≠ "") :
    ∃ st, handler P req = .ok st ∧
      ((st.res.statusCode = 400 ∧ st.res.body = [Payload.text "Disallowed URL scheme"] ∧
          st.calls = []) ↔
        ∃ p ∈ forbiddenSchemes, p.data <+: (asciiLower t).data) := by
  rw [← forbiddenSchemesTest_iff]
  cases hf : forbiddenSchemesTest t with
  | true =>
    exact ⟨_, handler_forbidden P req t hm ht hne hf, by
      simp [corsSt, St.status, St.send, St.init]⟩
  | false =>
    cases hs : includes (toLowerCase P t) (host P req) with
    | true =>
      refine ⟨_, handler_self P req t hm ht hne hf hs, ?_⟩
      simp only [corsSt, St.status, St.send, St.init, List.nil_append]
      constructor
      · rintro ⟨_, hb, _⟩
        exact absurd hb (by decide)
      · intro c
        exact absurd c (by decide)
    | false =>
      obtain ⟨st, hok, hc⟩ := handler_accepted P req t ⟨hm, ht, hne, hf, hs⟩
      refine ⟨st, hok, ?_⟩
      constructor
      · rintro ⟨_, _, hcalls⟩
        rw [hc] at hcalls
        exact absurd hcalls (by simp)
      · intro c
        exact absurd c (by decide)

/-- C5, at `GET /?url=javascript:alert(1)`. -/
theorem forbidden_scheme_rejected_witness :
    ∃ st, handler samplePlatform scriptRequest = .ok st ∧
      ((st.res.statusCode = 400 ∧ st.res.body = [Payload.text "Disallowed URL scheme"] ∧
          st.calls = []) ↔
        ∃ p ∈ forbiddenSchemes, p.data <+: (asciiLower "javascript:alert(1)").data) :=
  forbidden_scheme_rejected samplePlatform scriptRequest "javascript:alert(1)"
    (Or.inl rfl) (by decide) (by decide)

/-- C6: for a GET or HEAD request that carries a `Host` header and whose
extracted target does not begin with a forbidden scheme, the response is 400
with the body `Refusing to proxy to self` and without an upstream fetch if and
only if the lower-cased value of the header occurs in the lower-cased target. -/
theorem self_loop_rejected (P : Platform) (req : Request) (t h : String)
    (hm : req.method = "GET" ∨ req.method = "HEAD")
    (hh : headerGet req.headers "host" = some h)
    (ht : target req.query = some t) (hne : t ≠ "")
    (hf : ¬ ∃ p ∈ forbiddenSchemes, p.data <+: (asciiLower t).data) :
    ∃ st, handler P req = .ok st ∧
      ((st.res.statusCode = 400 ∧ st.res.body = [Payload.text "Refusing to proxy to self"] ∧
          st.calls = []) ↔
        (toLowerCase P h).data <:+: (toLowerCase P t).data) := by
  rw [← forbiddenSchemesTest_iff] at hf
  have hf' : forbiddenSchemesTest t = false := by simpa using hf
  rw [← includes_iff, ← host_of_header P req h hh]
  cases hs : includes (toLowerCase P t) (host P req) with
  | true =>
    exact ⟨_, handler_self P req t hm ht hne hf' hs, by
      simp [corsSt, St.status, St.send, St.init]⟩
  | false =>
    obtain ⟨st, hok, hc⟩ := handler_accepted P req t ⟨hm, ht, hne, hf', hs⟩
    refine ⟨st, hok, ?_⟩
    constructor
    · rintro ⟨_, _, hcalls⟩
      rw [hc] at hcalls
      exact absurd hcalls (by simp)
    · intro c
      exact absurd c (by decide)

/-- C6, at the host `proxy.example.com` and the target
`https://Proxy.Example.com/evil`. -/
theorem self_loop_rejected_witness :
    ∃ st, handler samplePlatform selfRequest = .ok st ∧
      ((st.res.statusCode = 400 ∧ st.res.body = [Payload.text "Refusing to proxy to self"] ∧
          st.calls = []) ↔
        (toLowerCase samplePlatform "proxy.example.com").data <:+:
          (toLowerCase samplePlatform "https://Proxy.Example.com/evil").data) :=
  self_loop_rejected samplePlatform selfRequest "https://Proxy.Example.com/evil"
    "proxy.example.com" (Or.inl rfl) (by decide) (by decide) (by decide) (by decide)

/-- C10: a GET or HEAD request whose `Host` header is absent or empty and whose
extracted target does not begin with a forbidden scheme gets the status 400 and
the body `Refusing to proxy to self`, without an upstream fetch, whatever the
target is. -/
theorem empty_host_refuses_every_target (P : Platform) (req : Request) (t : String)
    (hm : req.method = "GET" ∨ req.method = "HEAD")
    (hh : headerGet req.headers "host" = none ∨ headerGet req.headers "host" = some "")
    (ht : target req.query = some t) (hne : t ≠ "")
    (hf : ¬ ∃ p ∈ forbiddenSchemes, p.data <+: (asciiLower t).data) :
    ∃ st, handler P req = .ok st ∧ st.res.statusCode = 400 ∧
      st.res.body = [Payload.text "Refusing to proxy to self"] ∧ st.res.ended = true ∧
      st.calls = [] := by
  rw [← forbiddenSchemesTest_iff] at hf
  have hf' : forbiddenSchemesTest t = false := by simpa using hf
  have hs : includes (toLowerCase P t) (host P req) = true := by
    rw [host_of_empty P req hh]
    exact includes_empty _
  exact ⟨_, handler_self P req t hm ht hne hf' hs, rfl, rfl, rfl, rfl⟩

/-- C10, at `GET /?url=https://example.com` without a `Host` header. -/
theorem empty_host_refuses_every_target_witness :
    ∃ st, handler samplePlatform hostlessRequest = .ok st ∧ st.res.statusCode = 400 ∧
      st.res.body = [Payload.text "Refusing to proxy to self"] ∧ st.res.ended = true ∧
      st.calls = [] :=
  empty_host_refuses_every_target samplePlatform hostlessRequest "https://example.com"
    (Or.inl rfl) (Or.inl rfl) (by decide) (by decide) (by decide)

/-- C3, as stated, fails: the fetch of an accepted target resolves with the
status 200, reading the body with `arrayBuffer()` fails, and the response has
the status 502, not the status of the upstream response. -/
theorem status_mirror_counterexample :
    Accepted brokenBodyPlatform getRequest "https://example.com" ∧
    (∃ up, brokenBodyPlatform.fetch "https://example.com" (fetchInit getRequest) =
        .resolves up ∧ up.status = 200) ∧
    ∃ st, handler brokenBodyPlatform getRequest = .ok st ∧ st.res.statusCode = 502 ∧
      st.res.body = [Payload.text "Proxy error: terminated"] := by
  refine ⟨by unfold Accepted; decide, ⟨_, rfl, rfl⟩, ?_⟩
  exact ⟨_, rfl, by decide, by decide⟩

/-- C3, amended: for a GET or HEAD request with an accepted target whose fetch
resolves, the response is ended and, when the method is HEAD or the upstream
status is 204, it has the upstream status and an empty body, whatever the
upstream body is; otherwise, when the upstream body is read without an error,
it has the upstream status and its body is exactly the bytes of the upstream
body, in the piped branch and in the buffered branch alike. -/
theorem status_and_body_mirrored (P : Platform) (req : Request) (t : String) (up : Upstream)
    (ha : Accepted P req t) (hr : P.fetch t (fetchInit req) = .resolves up) :
    ∃ st, handler P req = .ok st ∧ st.res.ended = true ∧
      ((req.method = "HEAD" ∨ up.status = 204) →
        st.res.statusCode = up.status ∧ st.res.body = [] ∧ st.res.bodyBytes = []) ∧
      (∀ b, ¬ (req.method = "HEAD" ∨ up.status = 204) → up.body.bytes = some b →
        st.res.statusCode = up.status ∧ st.res.bodyBytes = b) := by
  obtain ⟨_, hst, hbody⟩ := mirrored_fields P up req t
  by_cases he : req.method = "HEAD" ∨ up.status = 204
  · refine ⟨_, handler_empty P req t up ha hr he, rfl, ?_, ?_⟩
    · intro _
      simp [corsSt, St.finish, hst, hbody, Res.bodyBytes]
    · intro b hne
      exact absurd he hne
  cases hb : up.body with
  | piped chunks =>
    refine ⟨_, handler_piped P req t up chunks ha hr he hb, rfl, fun c => absurd c he, ?_⟩
    intro b _ hbytes
    have hbc : chunks.flatten = b := by simpa [UpstreamBody.bytes] using hbytes
    have hcomp : Payload.bytes ∘ Payload.binary = id := rfl
    simp [corsSt, St.pipe, hst, hbody, Res.bodyBytes, List.map_map, hcomp, hbc]
  | plain r =>
    cases r with
    | ok buf =>
      refine ⟨_, handler_plain P req t up buf ha hr he hb, rfl, fun c => absurd c he, ?_⟩
      intro b _ hbytes
      have hbc : buf = b := by simpa [UpstreamBody.bytes] using hbytes
      simp [corsSt, St.finishWith, hst, hbody, Res.bodyBytes, Payload.bytes, hbc]
    | error e =>
      refine ⟨_, handler_plain_error P req t up e ha hr he hb, rfl, fun c => absurd c he, ?_⟩
      intro b _ hbytes
      simp [UpstreamBody.bytes] at hbytes

/-- C3, amended, at `GET /?url=https://example.com` with a body piped in two
chunks: the response has the upstream status and the two bytes as its body. -/
theorem status_and_body_mirrored_witness :
    ∃ st, handler pipedPlatform getRequest = .ok st ∧ st.res.ended = true ∧
      ((getRequest.method = "HEAD" ∨ 200 = 204) →
        st.res.statusCode = 200 ∧ st.res.body = [] ∧ st.res.bodyBytes = []) ∧
      (∀ b, ¬ (getRequest.method = "HEAD" ∨ 200 = 204) →
        UpstreamBody.bytes (.piped [[104], [105]]) = some b →
        st.res.statusCode = 200 ∧ st.res.bodyBytes = b) :=
  status_and_body_mirrored pipedPlatform getRequest "https://example.com"
    { sampleUpstream with body := .piped [[104], [105]] } (by unfold Accepted; decide) rfl

/-- C9, as stated, fails at the empty message: the fetch rejects with a
`TypeError` whose message is empty and the body of the response is
`Proxy error: TypeError`, not `Proxy error: ` alone. -/
theorem proxy_error_empty_message_counterexample :
    Accepted (failPlatform ⟨"TypeError", ""⟩) getRequest "https://example.com" ∧
    (failPlatform ⟨"TypeError", ""⟩).fetch "https://example.com" (fetchInit getRequest) =
      .rejects ⟨"TypeError", ""⟩ ∧
    ∃ st, handler (failPlatform ⟨"TypeError", ""⟩) getRequest = .ok st ∧
      st.res.statusCode = 502 ∧ st.res.body = [Payload.text "Proxy error: TypeError"] := by
  refine ⟨by unfold Accepted; decide, rfl, ?_⟩
  exact ⟨_, rfl, by decide, by decide⟩

/-- C9, amended: for a GET or HEAD request with an accepted target, when the
fetch rejects with an error, or resolves and the reading of the body with
`arrayBuffer()` rejects with an error, the response has the status 502 and its
body is `Proxy error: ` followed by the message of the error when the message
is not empty, and by `String(err)` when it is empty. -/
theorem proxy_error_response (P : Platform) (req : Request) (t : String) (e : JsError)
    (ha : Accepted P req t)
    (hfail : P.fetch t (fetchInit req) = .rejects e ∨
      ∃ up, P.fetch t (fetchInit req) = .resolves up ∧
        ¬ (req.method = "HEAD" ∨ up.status = 204) ∧ up.body = .plain (.error e)) :
    ∃ st, handler P req = .ok st ∧ st.res.statusCode = 502 ∧ st.res.ended = true ∧
      (e.message ≠ "" → st.res.body = [Payload.text ("Proxy error: " ++ e.message)]) ∧
      (e.message = "" → st.res.body = [Payload.text ("Proxy error: " ++ e.toString)]) := by
  rcases hfail with hr | ⟨up, hr, he, hb⟩
  · refine ⟨_, handler_rejects P req t e ha hr, rfl, rfl, ?_, ?_⟩
    · intro hm
      simp [corsSt, St.status, St.send, atFetch, St.init, errText, hm]
    · intro hm
      simp [corsSt, St.status, St.send, atFetch, St.init, errText, hm]
  · obtain ⟨_, _, hbody⟩ := mirrored_fields P up req t
    refine ⟨_, handler_plain_error P req t up e ha hr he hb, rfl, rfl, ?_, ?_⟩
    · intro hm
      simp [corsSt, St.status, St.send, hbody, errText, hm]
    · intro hm
      simp [corsSt, St.status, St.send, hbody, errText, hm]

/-- C9, amended, at a fetch that rejects with the message `fetch failed`. -/
theorem proxy_error_response_witness :
    ∃ st, handler (failPlatform ⟨"TypeError", "fetch failed"⟩) getRequest = .ok st ∧
      st.res.statusCode = 502 ∧ st.res.ended = true ∧
      (("fetch failed" : String) ≠ "" →
        st.res.body = [Payload.text ("Proxy error: " ++ "fetch failed")]) ∧
      (("fetch failed" : String) = "" →
        st.res.body = [Payload.text ("Proxy error: " ++ JsError.toString ⟨"TypeError", "fetch failed"⟩)]) :=
  proxy_error_response (failPlatform ⟨"TypeError", "fetch failed"⟩) getRequest
    "https://example.com" ⟨"TypeError", "fetch failed"⟩ (by unfold Accepted; decide)
    (Or.inl rfl)

/-- C4, as stated, fails: the sole key of the query of `GET
/?http://a.example/?x=1` begins with `http` and has the value `1`, which is not
empty, and the handler takes the key as the target and fetches it; the response
is the mirrored one, not the usage message. -/
theorem sole_key_with_value_counterexample :
    objectKeys valuedKeyRequest.query = ["http://a.example/?x"] ∧
    queryGet valuedKeyRequest.query "http://a.example/?x" = some "1" ∧
    queryGet valuedKeyRequest.query "url" = none ∧
    target valuedKeyRequest.query = some "http://a.example/?x" ∧
    ∃ st, handler samplePlatform valuedKeyRequest = .ok st ∧
      st.calls = [⟨"http://a.example/?x", fetchInit valuedKeyRequest⟩] ∧
      st.res.statusCode = 200 ∧ st.res.body = [Payload.binary [104, 105]] := by
  refine ⟨by decide, by decide, by decide, by decide, _, rfl, by decide, by decide, by decide⟩

/-- C4, amended: for a GET or HEAD request the target is the value of the query
parameter `url` when it is present and not empty; else the sole key of the
query when the query has exactly one key and the key begins with `http`,
whatever value the key has; in every other case there is no target, and the
response is 400 with the usage message and without an upstream fetch.  Every
fetch the handler issues is a fetch of the target as it is. -/
theorem target_extraction (P : Platform) (req : Request)
    (hm : req.method = "GET" ∨ req.method = "HEAD") :
    ∃ st, handler P req = .ok st ∧
      (∀ v, queryGet req.query "url" = some v → v ≠ "" → target req.query = some v) ∧
      (∀ k, (queryGet req.query "url" = none ∨ queryGet req.query "url" = some "") →
        objectKeys req.query = [k] → "http".data <+: k.data → target req.query = some k) ∧
      ((queryGet req.query "url" = none ∨ queryGet req.query "url" = some "") →
        (¬ ∃ k, objectKeys req.query = [k] ∧ "http".data <+: k.data) →
        (target req.query = none ∨ target req.query = some "") ∧
          st.res.statusCode = 400 ∧ st.res.body = [Payload.text usage] ∧ st.calls = []) ∧
      (∀ c ∈ st.calls, target req.query = some c.url ∧ c.init = fetchInit req) := by
  obtain ⟨st, hok, hcalls⟩ := handler_calls P req hm
  refine ⟨st, hok, target_of_url req.query, ?_, ?_, ?_⟩
  · intro k hu hk hp
    exact target_of_sole_key req.query k hu hk hp
  · intro hu hk
    have ht := target_of_no_sole_key req.query hu hk
    rw [handler_usage P req hm ht] at hok
    cases hok
    exact ⟨ht, rfl, rfl, rfl⟩
  · intro c hc
    rcases hcalls with h0 | ⟨t, ha, h1⟩
    · rw [h0] at hc
      simp at hc
    · rw [h1] at hc
      have : c = ⟨t, fetchInit req⟩ := by simpa using hc
      subst this
      exact ⟨ha.2.1, rfl⟩

/-- C4, amended, at `GET /?https://example.com`: the sole key is the target and
it is what the handler fetches. -/
theorem target_extraction_witness :
    target lazyRequest.query = some "https://example.com" ∧
    ∃ st, handler samplePlatform lazyRequest = .ok st ∧
      ∀ c ∈ st.calls, target lazyRequest.query = some c.url ∧ c.init = fetchInit lazyRequest :=
  have h := target_extraction samplePlatform lazyRequest (Or.inl rfl)
  ⟨by decide, h.choose, h.choose_spec.1, h.choose_spec.2.2.2.2⟩

/-- C8, as stated, fails: the upstream header `access-control-allow-origin:
https://a.example` is not on the block-list, and the response carries the value
`*` under that name, not the value the upstream sent. -/
theorem cors_named_header_counterexample :
    Accepted originPlatform getRequest "https://example.com" ∧
    originPlatform.fetch "https://example.com" (fetchInit getRequest) =
      .resolves
        { status := 200, headers := [("access-control-allow-origin", "https://a.example")],
          body := .plain (.ok []) } ∧
    blockedHeaders.contains (toLowerCase originPlatform "access-control-allow-origin") = false ∧
    ∃ st, handler originPlatform getRequest = .ok st ∧
      st.res.headers =
        [("Access-Control-Allow-Origin", "*"),
          ("Access-Control-Allow-Headers", "Origin, X-Requested-With, Content-Type, Accept"),
          ("Access-Control-Allow-Methods", "GET,HEAD,OPTIONS")] := by
  refine ⟨by unfold Accepted; decide, rfl, by decide, _, rfl, by decide⟩

/-- C8, amended: for a GET or HEAD request with an accepted target whose fetch
resolves, every upstream header whose name is not on the block-list and is not,
letter case ignored, the name of one of the three CORS headers, whose name and
value `setHeader` accepts, and which is the only upstream header of its name,
letter case ignored, is a header of the response, with the value the upstream
sent. -/
theorem upstream_header_mirrored (P : Platform) (req : Request) (t : String) (up : Upstream)
    (k v : String)
    (ha : Accepted P req t) (hr : P.fetch t (fetchInit req) = .resolves up)
    (hin : (k, v) ∈ up.headers)
    (hb : toLowerCase P k ∉ blockedHeaders) (hc : asciiLower k ∉ corsNames)
    (hn : validHeaderName k = true) (hv : validHeaderValue v = true)
    (hsame : ∀ kv ∈ up.headers, asciiLower kv.1 = asciiLower k → kv = (k, v)) :
    ∃ st, handler P req = .ok st ∧ (k, v) ∈ st.res.headers := by
  have hmir : (k, v) ∈ (mirrored P up (atFetch req t)).res.headers :=
    mem_foldl_mirrorHeader P up.headers _ k v hin hb hn hv hsame
  have hcors := mem_corsHeaders_of_not_cors hmir hc
  by_cases he : req.method = "HEAD" ∨ up.status = 204
  · exact ⟨_, handler_empty P req t up ha hr he, hcors⟩
  cases hbody : up.body with
  | piped chunks => exact ⟨_, handler_piped P req t up chunks ha hr he hbody, hcors⟩
  | plain r =>
    cases r with
    | ok buf => exact ⟨_, handler_plain P req t up buf ha hr he hbody, hcors⟩
    | error e =>
      exact ⟨_, handler_plain_error P req t up e ha hr he hbody,
        mem_corsHeaders_of_not_cors hcors hc⟩

/-- C8, amended, at the header `content-type: text/plain` of `sampleUpstream`. -/
theorem upstream_header_mirrored_witness :
    ∃ st, handler samplePlatform getRequest = .ok st ∧
      ("content-type", "text/plain") ∈ st.res.headers :=
  upstream_header_mirrored samplePlatform getRequest "https://example.com" sampleUpstream
    "content-type" "text/plain" (by unfold Accepted; decide) rfl (by decide) (by decide)
    (by decide) (by decide) (by decide) (by decide)

end RatProxy
